import Mathlib

/-!
# pkg/encrypt/rsa.go — key loading and RSA-OAEP transport encryption

A shallow embedding of the four functions of `pkg/encrypt/rsa.go`:
`ReadRsaPrivateKey`, `ReadRsaPublicKey`, `RsaEncrypt` and `RsaDecrypt`.

The Go functions are thin control flow around the standard library
(`ioutil`, `pem`, `x509`, `rsa`, `base64`, `log`, `os`).  The library and the
file system are not part of the package: they are the fields of a `World`, and
the general theorems quantify over all worlds; `Example.world` is one concrete
world on which the functions are evaluated.  What the package itself does — which
library call is made with which argument, in which order, what is logged, and
whether the function returns, exits the process or runs off its end — is
recorded by the `Run` type: a trace of events together with an outcome.

Conventions.
* A Go `(value, err)` result of a library call is an `Except GoError value`
  (the library returns a usable value exactly when `err == nil`).
* A Go pointer that the package itself dereferences or returns is an `Option`
  (`nil` is `none`); the key pointers of `RsaEncrypt` and `RsaDecrypt`, which
  are handed to the library unexamined, are the keys themselves.
* A Go `string` is a Lean `String`, a `[]byte` is a list of bytes.
* `interface{}` results are sums over the dynamic types the library documents.
-/

namespace Medusa

/-! ## Data model -/

/-- One octet. -/
abbrev Byte := Fin 256

/-- Go `[]byte`. -/
abbrev Bytes := List Byte

/-- Go `error` value: what `err.Error()` prints. -/
structure GoError where
  msg : String
  deriving DecidableEq, Repr

/-- Go `err.Error()`. -/
def GoError.Error (err : GoError) : String := err.msg

/-- Go `pem.Block`; `Type_` is the Go field `Type` (headers are never read by
the package). -/
structure pem.Block where
  Type_ : String
  Bytes : Medusa.Bytes
  deriving DecidableEq, Repr

/-- Go `rsa.PublicKey`. -/
structure rsa.PublicKey where
  N : Nat
  E : Nat
  deriving DecidableEq, Repr

/-- Go `(*rsa.PublicKey).Size`: the modulus length in bytes,
`(N.BitLen() + 7) / 8`. -/
def rsa.PublicKey.Size (pub : rsa.PublicKey) : Nat := (Nat.size pub.N + 7) / 8

/-- Go `rsa.PrivateKey`. -/
structure rsa.PrivateKey where
  PublicKey : rsa.PublicKey
  D : Nat
  Primes : List Nat
  deriving DecidableEq, Repr

/-- Go `ecdsa.PrivateKey`. -/
structure ecdsa.PrivateKey where
  Curve : String
  X : Nat
  Y : Nat
  D : Nat
  deriving DecidableEq, Repr

/-- Dynamic type of the `interface{}` that `ReadRsaPrivateKey` returns.  The
SEC1 parser yields `*ecdsa.PrivateKey`, the PKCS#1 parser `*rsa.PrivateKey`, and
`x509.ParsePKCS8PrivateKey` yields a `*rsa.PrivateKey`, a `*ecdsa.PrivateKey`,
an `ed25519.PrivateKey` or a `*ecdh.PrivateKey`. -/
inductive PrivateKey where
  | rsa (key : rsa.PrivateKey)
  | ecdsa (key : ecdsa.PrivateKey)
  | ed25519 (key : Bytes)
  | ecdh (key : Bytes)
  deriving DecidableEq, Repr

/-- Dynamic type of the value `x509.ParsePKIXPublicKey` returns: `*rsa.PublicKey`,
`*dsa.PublicKey`, `*ecdsa.PublicKey`, `ed25519.PublicKey` or `*ecdh.PublicKey`. -/
inductive PublicKey where
  | rsa (key : rsa.PublicKey)
  | dsa (y : Nat)
  | ecdsa (curve : String) (x y : Nat)
  | ed25519 (key : Bytes)
  | ecdh (key : Bytes)
  deriving DecidableEq, Repr

/-- Go `hash.Hash` as far as OAEP needs it: the digest length. -/
structure Hash where
  name : String
  Size : Nat
  deriving DecidableEq, Repr

/-- Go `sha256.New()`. -/
def sha256.New : Hash := { name := "SHA-256", Size := 32 }

/-- Go `io.Reader` of random bytes: the bytes it will deliver. -/
abbrev RandReader := List Byte

/-! ## Effects -/

/-- What a run of a function does that is visible from outside. -/
inductive Event where
  | logged (line : String)
  | readFile (path : String)
  | pemDecode (data : Bytes)
  | parseECPrivateKey (der : Bytes)
  | parsePKCS1PrivateKey (der : Bytes)
  | parsePKCS8PrivateKey (der : Bytes)
  | parsePKIXPublicKey (der : Bytes)
  | encryptOAEP (hash : Hash) (pub : rsa.PublicKey) (msg : Bytes) (label : Bytes)
  | decryptOAEP (hash : Hash) (priv : rsa.PrivateKey) (ciphertext : Bytes) (label : Bytes)
  | base64Encode (src : Bytes)
  | base64Decode (s : String)
  deriving DecidableEq, Repr

/-- How a run of a function ends. -/
inductive Outcome (α : Type) where
  /-- Normal completion with a value: for a function, the value of the
  `return` statement that was executed. -/
  | returned (value : α)
  /-- The process was ended by `os.Exit(code)`. -/
  | exited (code : Int)
  /-- Control reached the closing brace of a function that has a result type
  without executing a `return`: no value is defined. -/
  | missingReturn
  /-- A run-time panic (nil pointer dereference). -/
  | panicked
  deriving DecidableEq, Repr

/-- A run: the events in order, and the outcome. -/
structure Run (α : Type) where
  trace : List Event
  outcome : Outcome α
  deriving DecidableEq, Repr

/-- Sequencing: the continuation runs only after a normal completion. -/
def Run.bind {α β : Type} (x : Run α) (f : α → Run β) : Run β :=
  match x.outcome with
  | .returned v => { trace := x.trace ++ (f v).trace, outcome := (f v).outcome }
  | .exited c => { trace := x.trace, outcome := .exited c }
  | .missingReturn => { trace := x.trace, outcome := .missingReturn }
  | .panicked => { trace := x.trace, outcome := .panicked }

instance : Monad Run where
  pure v := { trace := [], outcome := .returned v }
  bind := Run.bind

/-- One library call: record the event, deliver the library answer. -/
def call {α : Type} (e : Event) (answer : α) : Run α :=
  { trace := [e], outcome := .returned answer }

/-- Go `log.Printf` with the format already applied. -/
def log.Printf (line : String) : Run Unit :=
  { trace := [.logged line], outcome := .returned () }

/-- Go `os.Exit`. -/
def os.Exit {α : Type} (code : Int) : Run α :=
  { trace := [], outcome := .exited code }

/-- Closing brace reached without `return`. -/
def endOfFunction {α : Type} : Run α :=
  { trace := [], outcome := .missingReturn }

/-- Dereference of a Go pointer: `nil` panics. -/
def deref {α : Type} : Option α → Run α
  | some v => pure v
  | none => { trace := [], outcome := .panicked }

/-! ## The library and the file system -/

/-- Everything `rsa.go` imports. -/
structure World where
  /-- Go `ioutil.ReadFile` -/
  ReadFile : String → Except GoError Bytes
  /-- Go `pem.Decode`: the first block (or `nil`) and the remaining input. -/
  Decode : Bytes → Option pem.Block × Bytes
  /-- Go `x509.ParseECPrivateKey` -/
  ParseECPrivateKey : Bytes → Except GoError ecdsa.PrivateKey
  /-- Go `x509.ParsePKCS1PrivateKey` -/
  ParsePKCS1PrivateKey : Bytes → Except GoError rsa.PrivateKey
  /-- Go `x509.ParsePKCS8PrivateKey` -/
  ParsePKCS8PrivateKey : Bytes → Except GoError PrivateKey
  /-- Go `x509.ParsePKIXPublicKey` -/
  ParsePKIXPublicKey : Bytes → Except GoError PublicKey
  /-- Go `rand.Reader` -/
  Reader : RandReader
  /-- Go `rsa.EncryptOAEP(hash, random, pub, msg, label)` -/
  EncryptOAEP : Hash → RandReader → rsa.PublicKey → Bytes → Bytes → Except GoError Bytes
  /-- Go `rsa.DecryptOAEP(hash, random, priv, ciphertext, label)` -/
  DecryptOAEP : Hash → RandReader → rsa.PrivateKey → Bytes → Bytes → Except GoError Bytes
  /-- Go `base64.StdEncoding.EncodeToString` -/
  EncodeToString : Bytes → String
  /-- Go `base64.StdEncoding.DecodeString` -/
  DecodeString : String → Except GoError Bytes

/-! ## `rsa.go` -/

/-- ECPrivateKeyBlockType is a possible value for pem.Block.Type. -/
def ECPrivateKeyBlockType : String := "EC PRIVATE KEY"

/-- RSAPrivateKeyBlockType is a possible value for pem.Block.Type. -/
def RSAPrivateKeyBlockType : String := "RSA PRIVATE KEY"

/-- PrivateKeyBlockType is a possible value for pem.Block.Type. -/
def PrivateKeyBlockType : String := "PRIVATE KEY"

/-- ReadRsaPrivateKey sets the private key (rsa.go, lines 19-67). -/
def ReadRsaPrivateKey (w : World) (key : String) : Run PrivateKey := do
  let keyData ← match ← call (.readFile key) (w.ReadFile key) with
    | .error err => do
      log.Printf ("ERROR: fail get idrsa, " ++ err.Error)
      os.Exit 1
    | .ok keyData => pure keyData
  let keyBlock ← match ← call (.pemDecode keyData) (w.Decode keyData) with
    | (none, _) => do
      log.Printf "ERROR: fail get idrsa, invalid key"
      os.Exit 1
    | (some keyBlock, _) => pure keyBlock
  if keyBlock.Type_ = ECPrivateKeyBlockType then
    -- ECDSA Private Key in ASN.1 format
    match ← call (.parseECPrivateKey keyBlock.Bytes) (w.ParseECPrivateKey keyBlock.Bytes) with
    | .error err => do
      log.Printf ("ERROR: " ++ err.Error)
      os.Exit 1
    | .ok key => return .ecdsa key
  else if keyBlock.Type_ = RSAPrivateKeyBlockType then
    -- RSA Private Key in PKCS#1 format
    match ← call (.parsePKCS1PrivateKey keyBlock.Bytes) (w.ParsePKCS1PrivateKey keyBlock.Bytes) with
    | .error err => do
      log.Printf ("ERROR: " ++ err.Error)
      os.Exit 1
    | .ok key => return .rsa key
  else if keyBlock.Type_ = PrivateKeyBlockType then
    -- RSA or ECDSA Private Key in unencrypted PKCS#8 format
    match ← call (.parsePKCS8PrivateKey keyBlock.Bytes) (w.ParsePKCS8PrivateKey keyBlock.Bytes) with
    | .error err => do
      log.Printf ("ERROR: " ++ err.Error)
      os.Exit 1
    | .ok key => return key
  else
    -- the switch has no default case and no statement follows it
    endOfFunction

/-- ReadRsaPublicKey sets the public key (rsa.go, lines 70-94). -/
def ReadRsaPublicKey (w : World) (key : String) : Run (Option rsa.PublicKey) := do
  match ← call (.readFile key) (w.ReadFile key) with
  | .error err => do
    log.Printf ("ERROR: fail get idrsapub, " ++ err.Error)
    return none
  | .ok keyData =>
    match ← call (.pemDecode keyData) (w.Decode keyData) with
    | (none, _) => do
      log.Printf "ERROR: fail get idrsapub, invalid key"
      return none
    | (some keyBlock, _) =>
      match ← call (.parsePKIXPublicKey keyBlock.Bytes) (w.ParsePKIXPublicKey keyBlock.Bytes) with
      | .error err => do
        log.Printf ("ERROR: fail get idrsapub, " ++ err.Error)
        return none
      | .ok publicKey =>
        match publicKey with
        | .rsa publicKey => return some publicKey
        | _ => return none

/-- RsaEncrypt encrypt data (rsa.go, lines 97-110).  The result pair is
`(string, error)`; a `nil` error is `none`. -/
def RsaEncrypt (w : World) (payload : Option Bytes) (key : rsa.PublicKey) :
    Run (String × Option GoError) := do
  -- params
  let rnd := w.Reader
  let hash := sha256.New
  -- encrypt with OAEP
  let msg ← deref payload
  match ← call (.encryptOAEP hash key msg []) (w.EncryptOAEP hash rnd key msg []) with
  | .error err => do
    log.Printf ("ERROR: fail to encrypt, " ++ err.Error)
    return ("", some err)
  | .ok ciperText =>
    let s ← call (.base64Encode ciperText) (w.EncodeToString ciperText)
    return (s, none)

/-- RsaDecrypt decrypts the data (rsa.go, lines 113-133).  The result pair is
`(*[]byte, error)`. -/
def RsaDecrypt (w : World) (payload : String) (key : rsa.PrivateKey) :
    Run (Option Bytes × Option GoError) := do
  -- decode base64 encoded signature
  match ← call (.base64Decode payload) (w.DecodeString payload) with
  | .error err => do
    log.Printf ("ERROR: fail to base64 decode, " ++ err.Error)
    return (none, some err)
  | .ok msg =>
    -- params
    let rnd := w.Reader
    let hash := sha256.New
    -- decrypt with OAEP
    match ← call (.decryptOAEP hash key msg []) (w.DecryptOAEP hash rnd key msg []) with
    | .error err => do
      log.Printf ("ERROR: fail to decrypt, " ++ err.Error)
      return (none, some err)
    | .ok plainText => return (some plainText, none)

/-! ## Reading a run -/

/-- The event is a call of `rsa.DecryptOAEP`. -/
def Event.isDecryptOAEP : Event → Bool
  | .decryptOAEP _ _ _ _ => true
  | _ => false

/-- The event is a call of `rsa.EncryptOAEP`. -/
def Event.isEncryptOAEP : Event → Bool
  | .encryptOAEP _ _ _ _ => true
  | _ => false

/-- The event is a call of one of the four `x509` parsers. -/
def Event.isParse : Event → Bool
  | .parseECPrivateKey _ => true
  | .parsePKCS1PrivateKey _ => true
  | .parsePKCS8PrivateKey _ => true
  | .parsePKIXPublicKey _ => true
  | _ => false

/-- The event is a line written by `log.Printf`. -/
def Event.isLogged : Event → Bool
  | .logged _ => true
  | _ => false

/-- The key is an RSA private key. -/
def PrivateKey.isRSA : PrivateKey → Bool
  | .rsa _ => true
  | _ => false

/-- The key is an EC private key. -/
def PrivateKey.isEC : PrivateKey → Bool
  | .ecdsa _ => true
  | _ => false

/-- The parser that the switch of `ReadRsaPrivateKey` selects for the label of
`keyBlock` rejects the bytes of the block with `err`. -/
def SelectedParserFails (w : World) (keyBlock : pem.Block) (err : GoError) : Prop :=
  (keyBlock.Type_ = "EC PRIVATE KEY" ∧ w.ParseECPrivateKey keyBlock.Bytes = .error err) ∨
  (keyBlock.Type_ = "RSA PRIVATE KEY" ∧ w.ParsePKCS1PrivateKey keyBlock.Bytes = .error err) ∨
  (keyBlock.Type_ = "PRIVATE KEY" ∧ w.ParsePKCS8PrivateKey keyBlock.Bytes = .error err)

/-- The label of the block is none of the three cases of the switch. -/
def UnsupportedLabel (keyBlock : pem.Block) : Prop :=
  keyBlock.Type_ ≠ "EC PRIVATE KEY" ∧ keyBlock.Type_ ≠ "RSA PRIVATE KEY" ∧
    keyBlock.Type_ ≠ "PRIVATE KEY"

/-- The OAEP-SHA256 primitive pair round-trips for the key pair `(pub, priv)`:
whatever the random source delivers, a message within the OAEP limit
`k - 2*32 - 2` is encrypted without error, and the ciphertext decrypts to the
message.  This is what makes `(pub, priv)` a matching pair. -/
def OAEPRoundTrips (w : World) (pub : rsa.PublicKey) (priv : rsa.PrivateKey) : Prop :=
  ∀ (r1 r2 : RandReader) (msg : Bytes),
    (msg.length : Int) ≤ (pub.Size : Int) - 2 * 32 - 2 →
    ∃ c, w.EncryptOAEP sha256.New r1 pub msg [] = .ok c ∧
      w.DecryptOAEP sha256.New r2 priv c [] = .ok msg

/-- The OAEP-SHA256 encryption primitive refuses, under key `pub`, every message
longer than the OAEP limit `k - 2*32 - 2`. -/
def OAEPRejectsOversized (w : World) (pub : rsa.PublicKey) : Prop :=
  ∀ (r : RandReader) (msg : Bytes),
    (msg.length : Int) > (pub.Size : Int) - 2 * 32 - 2 →
    ∃ err, w.EncryptOAEP sha256.New r pub msg [] = .error err

/-! ## An example world

A concrete `World` on which the functions can be evaluated: a small file table,
lookup tables for the PEM and X.509 parsers, the RFC 4648 base64 codec, and a
stand-in for the OAEP primitive that keeps the shape of its interface (length
limit, fixed-size ciphertext, dependence on the key, one generic decryption
error) without the number theory. -/

deriving instance DecidableEq for Except

namespace Base64

/-- The standard alphabet of RFC 4648, section 4 (`encodeStd` in Go). -/
def encodeStd : List Char :=
  "ABCDEFGHIJKLMNOPQRSTUVWXYZabcdefghijklmnopqrstuvwxyz0123456789+/".toList

/-- The character of a 6-bit value. -/
def encodeChar (n : Nat) : Char := encodeStd.getD n 'A'

/-- The 6-bit value of a character of the alphabet; `none` for any other
character, the padding character included. -/
def decodeChar (c : Char) : Option Nat :=
  let i := encodeStd.indexOf c
  if i < 64 then some i else none

/-- The low eight bits of a number, as a byte. -/
def toByte (n : Nat) : Byte := ⟨n % 256, Nat.mod_lt n (by decide)⟩

/-- Padded encoding: three bytes become four characters, a final group of one
or two bytes is padded with `=`. -/
def encode : Bytes → List Char
  | [] => []
  | [a] => [encodeChar (a.val / 4), encodeChar (a.val % 4 * 16), '=', '=']
  | [a, b] =>
    [encodeChar (a.val / 4), encodeChar (a.val % 4 * 16 + b.val / 16),
      encodeChar (b.val % 16 * 4), '=']
  | a :: b :: c :: rest =>
    encodeChar (a.val / 4) :: encodeChar (a.val % 4 * 16 + b.val / 16) ::
      encodeChar (b.val % 16 * 4 + c.val / 64) :: encodeChar (c.val % 64) :: encode rest

/-- Go `base64.CorruptInputError`. -/
def CorruptInputError (offset : Nat) : GoError :=
  { msg := "illegal base64 data at input byte " ++ toString offset }

/-- Padded decoding, four characters at a time; padding is accepted in the
last group only.  (Line breaks, which the Go decoder skips, are not accepted
here.) -/
def decode (offset : Nat) : List Char → Except GoError Bytes
  | [] => .ok []
  | a :: b :: c :: d :: rest =>
    match decodeChar a, decodeChar b, decodeChar c, decodeChar d with
    | some x, some y, some z, some t =>
      match decode (offset + 4) rest with
      | .ok tail =>
        .ok (toByte (x * 4 + y / 16) :: toByte (y % 16 * 16 + z / 4) ::
          toByte (z % 4 * 64 + t) :: tail)
      | .error err => .error err
    | some x, some y, some z, none =>
      if d = '=' then
        if rest = [] then .ok [toByte (x * 4 + y / 16), toByte (y % 16 * 16 + z / 4)]
        else .error (CorruptInputError (offset + 4))
      else .error (CorruptInputError (offset + 3))
    | some x, some y, none, _ =>
      if c = '=' ∧ d = '=' then
        if rest = [] then .ok [toByte (x * 4 + y / 16)]
        else .error (CorruptInputError (offset + 4))
      else .error (CorruptInputError (offset + 2))
    | some _, none, _, _ => .error (CorruptInputError (offset + 1))
    | none, _, _, _ => .error (CorruptInputError offset)
  | _ => .error (CorruptInputError offset)

/-- Stand-in for `base64.StdEncoding.EncodeToString`. -/
def EncodeToString (src : Bytes) : String := String.mk (encode src)

/-- Stand-in for `base64.StdEncoding.DecodeString`. -/
def DecodeString (s : String) : Except GoError Bytes := decode 0 s.toList

end Base64

namespace Example

/-- Go `rsa.ErrMessageTooLong`. -/
def ErrMessageTooLong : GoError := { msg := "crypto/rsa: message too long for RSA key size" }

/-- Go `rsa.ErrDecryption`. -/
def ErrDecryption : GoError := { msg := "crypto/rsa: decryption error" }

/-- What the stand-in cipher takes from the key: the low byte of the modulus. -/
def keyMask (pub : rsa.PublicKey) : Byte := Base64.toByte pub.N

/-- Stand-in for `rsa.EncryptOAEP`: rejects a message longer than
`k - 2*hLen - 2`, otherwise lays out the OAEP block
`00 ‖ seed ‖ 00…00 ‖ 01 ‖ msg` of exactly `k` bytes and shifts every byte by
the key mask. -/
def EncryptOAEP (hash : Hash) (random : RandReader) (pub : rsa.PublicKey)
    (msg _label : Bytes) : Except GoError Bytes :=
  if (msg.length : Int) > (pub.Size : Int) - 2 * hash.Size - 2 then .error ErrMessageTooLong
  else
    let seed := (random ++ List.replicate hash.Size 0).take hash.Size
    let ps := List.replicate (pub.Size - 2 * hash.Size - 2 - msg.length) (0 : Byte)
    let em := 0 :: (seed ++ (List.replicate hash.Size 0 ++ (ps ++ 1 :: msg)))
    .ok (em.map (· + keyMask pub))

/-- Stand-in for `rsa.DecryptOAEP`: undoes `EncryptOAEP`; every failure is the
one error `ErrDecryption`. -/
def DecryptOAEP (hash : Hash) (_random : RandReader) (priv : rsa.PrivateKey)
    (ciphertext _label : Bytes) : Except GoError Bytes :=
  if ciphertext.length ≠ priv.PublicKey.Size then .error ErrDecryption
  else
    match ciphertext.map (· - keyMask priv.PublicKey) with
    | y :: em =>
      if y = 0 then
        match (em.drop hash.Size).dropWhile (· = 0) with
        | one :: msg => if one = 1 then .ok msg else .error ErrDecryption
        | [] => .error ErrDecryption
      else .error ErrDecryption
    | [] => .error ErrDecryption

/-- A 2048-bit public key (only the size of the modulus matters here). -/
def pub : rsa.PublicKey := { N := 2 ^ 2047 + 189, E := 65537 }

/-- The private key matching `pub`. -/
def priv : rsa.PrivateKey := { PublicKey := pub, D := 3, Primes := [] }

/-- An EC private key. -/
def ecKey : ecdsa.PrivateKey := { Curve := "P-256", X := 1, Y := 2, D := 3 }

/-- An Ed25519 private key. -/
def edKey : Bytes := [7, 7, 7, 7]

/-- The files of the example world: path and content. -/
def files : List (String × Bytes) :=
  [("id_rsa.pem", [1]), ("id_ec.pem", [2]), ("id_pkcs8.pem", [3]),
    ("id_ed25519.pem", [4]), ("cert.pem", [5]), ("id_rsa.pub", [6]), ("id_ec.pub", [7]),
    ("notes.txt", [8]), ("broken_rsa.pem", [9]), ("id_rsa_then_more.pem", [1, 10])]

/-- Stand-in for `ioutil.ReadFile`. -/
def ReadFile (path : String) : Except GoError Bytes :=
  match files.lookup path with
  | some data => .ok data
  | none => .error { msg := "open " ++ path ++ ": no such file or directory" }

/-- Stand-in for `pem.Decode`: the first block of each file of `files` and the
input that follows it. -/
def Decode (data : Bytes) : Option pem.Block × Bytes :=
  match data with
  | [1] => (some { Type_ := "RSA PRIVATE KEY", Bytes := [48, 1] }, [])
  | [2] => (some { Type_ := "EC PRIVATE KEY", Bytes := [48, 2] }, [])
  | [3] => (some { Type_ := "PRIVATE KEY", Bytes := [48, 3] }, [])
  | [4] => (some { Type_ := "PRIVATE KEY", Bytes := [48, 4] }, [])
  | [5] => (some { Type_ := "CERTIFICATE", Bytes := [48, 5] }, [])
  | [6] => (some { Type_ := "PUBLIC KEY", Bytes := [48, 6] }, [])
  | [7] => (some { Type_ := "PUBLIC KEY", Bytes := [48, 7] }, [])
  | [9] => (some { Type_ := "RSA PRIVATE KEY", Bytes := [48, 9] }, [])
  | [1, 10] => (some { Type_ := "RSA PRIVATE KEY", Bytes := [48, 1] }, [10])
  | _ => (none, data)

/-- Stand-in for `x509.ParseECPrivateKey`. -/
def ParseECPrivateKey (der : Bytes) : Except GoError ecdsa.PrivateKey :=
  if der = [48, 2] then .ok ecKey
  else .error { msg := "x509: failed to parse EC private key" }

/-- Stand-in for `x509.ParsePKCS1PrivateKey`. -/
def ParsePKCS1PrivateKey (der : Bytes) : Except GoError rsa.PrivateKey :=
  if der = [48, 1] then .ok priv
  else .error { msg := "x509: failed to parse private key" }

/-- Stand-in for `x509.ParsePKCS8PrivateKey`. -/
def ParsePKCS8PrivateKey (der : Bytes) : Except GoError PrivateKey :=
  if der = [48, 3] then .ok (.rsa priv)
  else if der = [48, 4] then .ok (.ed25519 edKey)
  else .error { msg := "x509: failed to parse private key" }

/-- Stand-in for `x509.ParsePKIXPublicKey`. -/
def ParsePKIXPublicKey (der : Bytes) : Except GoError PublicKey :=
  if der = [48, 6] then .ok (.rsa pub)
  else if der = [48, 7] then .ok (.ecdsa "P-256" 1 2)
  else .error { msg := "x509: failed to parse public key" }

/-- The example world. -/
def world : World where
  ReadFile := ReadFile
  Decode := Decode
  ParseECPrivateKey := ParseECPrivateKey
  ParsePKCS1PrivateKey := ParsePKCS1PrivateKey
  ParsePKCS8PrivateKey := ParsePKCS8PrivateKey
  ParsePKIXPublicKey := ParsePKIXPublicKey
  Reader := [4, 8, 15, 16, 23, 42]
  EncryptOAEP := EncryptOAEP
  DecryptOAEP := DecryptOAEP
  EncodeToString := Base64.EncodeToString
  DecodeString := Base64.DecodeString

/-- The bytes of `"hello-world"`. -/
def helloWorld : Bytes := [104, 101, 108, 108, 111, 45, 119, 111, 114, 108, 100]

end Example

/-! ## Lemmas on the example world -/

namespace Base64

theorem decodeChar_encodeChar_fin :
    ∀ n : Fin 64, decodeChar (encodeChar n.val) = some n.val := by
  decide

theorem decodeChar_encodeChar (n : Nat) (h : n < 64) : decodeChar (encodeChar n) = some n :=
  decodeChar_encodeChar_fin ⟨n, h⟩

theorem decodeChar_pad : decodeChar '=' = none := by decide

theorem toByte_eq (n : Nat) (a : Byte) (h : n % 256 = a.val) : toByte n = a :=
  Fin.ext h

theorem decode_encode (src : Bytes) : ∀ offset, decode offset (encode src) = .ok src := by
  induction src using encode.induct with
  | case1 => intro offset; rfl
  | case2 a =>
    intro offset
    have ha := a.isLt
    simp only [encode, decode, decodeChar_encodeChar (a.val / 4) (by omega),
      decodeChar_encodeChar (a.val % 4 * 16) (by omega), decodeChar_pad, and_self, if_true]
    rw [toByte_eq _ a (by omega)]
  | case3 a b =>
    intro offset
    have ha := a.isLt
    have hb := b.isLt
    simp only [encode, decode, decodeChar_encodeChar (a.val / 4) (by omega),
      decodeChar_encodeChar (a.val % 4 * 16 + b.val / 16) (by omega),
      decodeChar_encodeChar (b.val % 16 * 4) (by omega), decodeChar_pad, if_true]
    rw [toByte_eq _ a (by omega), toByte_eq _ b (by omega)]
  | case4 a b c rest ih =>
    intro offset
    have ha := a.isLt
    have hb := b.isLt
    have hc := c.isLt
    simp only [encode, decode, decodeChar_encodeChar (a.val / 4) (by omega),
      decodeChar_encodeChar (a.val % 4 * 16 + b.val / 16) (by omega),
      decodeChar_encodeChar (b.val % 16 * 4 + c.val / 64) (by omega),
      decodeChar_encodeChar (c.val % 64) (by omega), ih (offset + 4)]
    rw [toByte_eq _ a (by omega), toByte_eq _ b (by omega), toByte_eq _ c (by omega)]

/-- Decoding undoes encoding, on every byte string. -/
theorem DecodeString_EncodeToString (src : Bytes) :
    DecodeString (EncodeToString src) = .ok src := by
  simp [DecodeString, EncodeToString, decode_encode]

end Base64

namespace Example

theorem dropWhile_zero_replicate (n : Nat) (tail : Bytes) :
    (List.replicate n (0 : Byte) ++ 1 :: tail).dropWhile (· = 0) = 1 :: tail := by
  induction n with
  | zero => simp [List.dropWhile]
  | succ n ih => simp [List.replicate_succ, List.dropWhile, ih]

/-- The stand-in cipher round-trips on every message within the OAEP limit. -/
theorem DecryptOAEP_EncryptOAEP (hash : Hash) (r1 r2 : RandReader) (priv : rsa.PrivateKey)
    (msg l1 l2 : Bytes)
    (hlen : (msg.length : Int) ≤ (priv.PublicKey.Size : Int) - 2 * hash.Size - 2) :
    ∃ c, EncryptOAEP hash r1 priv.PublicKey msg l1 = .ok c ∧
      DecryptOAEP hash r2 priv c l2 = .ok msg := by
  have hseed :
      ((r1 ++ List.replicate hash.Size (0 : Byte)).take hash.Size).length = hash.Size := by
    simp
  refine ⟨_, if_neg (by omega), ?_⟩
  have hmap : ∀ em : Bytes,
      List.map ((· - keyMask priv.PublicKey) ∘ (· + keyMask priv.PublicKey)) em = em := by
    intro em
    simp [Function.comp_def]
  have hdrop : ∀ em tail : Bytes, em.length = hash.Size →
      (em ++ tail).drop hash.Size = tail := by
    intro em tail h
    rw [← h]
    exact List.drop_left em tail
  simp only [DecryptOAEP, List.length_map, List.length_cons, List.length_append, hseed,
    List.length_replicate, List.map_map, hmap]
  rw [if_neg (by omega)]
  simp only [if_true, hdrop _ _ hseed]
  rw [← List.append_assoc, ← List.replicate_add, dropWhile_zero_replicate]
  simp

theorem size_modulus : Nat.size (2 ^ 2047 + 189) = 2048 :=
  le_antisymm (Nat.size_le.mpr (by norm_num)) (Nat.lt_size.mpr (Nat.le_add_right _ _))

theorem Size_eq (key : rsa.PublicKey) : key.Size = (Nat.size key.N + 7) / 8 := rfl

theorem pub_N : pub.N = 2 ^ 2047 + 189 := rfl

theorem size_pub_N : (Nat.size pub.N + 7) / 8 = 256 := by
  rw [pub_N, size_modulus]

/-- The example key has a modulus of 256 bytes. -/
theorem pub_Size : pub.Size = 256 := (Size_eq pub).trans size_pub_N

end Example

/-! ## The runs, case by case

Each lemma evaluates one path through a function: the hypotheses fix the
answers of the library, the conclusion is the complete run. -/

theorem ReadRsaPrivateKey_readFile_error (w : World) (key : String) (err : GoError)
    (hread : w.ReadFile key = .error err) :
    ReadRsaPrivateKey w key =
      { trace := [.readFile key, .logged ("ERROR: fail get idrsa, " ++ err.Error)],
        outcome := .exited 1 } := by
  simp [ReadRsaPrivateKey, call, log.Printf, os.Exit, bind, Run.bind, hread]

theorem ReadRsaPrivateKey_decode_nil (w : World) (key : String) (keyData rest : Bytes)
    (hread : w.ReadFile key = .ok keyData) (hpem : w.Decode keyData = (none, rest)) :
    ReadRsaPrivateKey w key =
      { trace := [.readFile key, .pemDecode keyData,
          .logged "ERROR: fail get idrsa, invalid key"],
        outcome := .exited 1 } := by
  simp [ReadRsaPrivateKey, call, log.Printf, os.Exit, bind, pure, Run.bind, hread, hpem]

theorem ReadRsaPrivateKey_ec (w : World) (key : String) (keyData rest : Bytes)
    (keyBlock : pem.Block)
    (hread : w.ReadFile key = .ok keyData) (hpem : w.Decode keyData = (some keyBlock, rest))
    (hlabel : keyBlock.Type_ = "EC PRIVATE KEY") :
    ReadRsaPrivateKey w key =
      match w.ParseECPrivateKey keyBlock.Bytes with
      | .error err =>
        { trace := [.readFile key, .pemDecode keyData, .parseECPrivateKey keyBlock.Bytes,
            .logged ("ERROR: " ++ err.Error)],
          outcome := .exited 1 }
      | .ok k =>
        { trace := [.readFile key, .pemDecode keyData, .parseECPrivateKey keyBlock.Bytes],
          outcome := .returned (.ecdsa k) } := by
  cases h : w.ParseECPrivateKey keyBlock.Bytes <;>
    simp [ReadRsaPrivateKey, call, log.Printf, os.Exit, bind, pure, Run.bind, hread, hpem,
      hlabel, h, ECPrivateKeyBlockType]

theorem ReadRsaPrivateKey_pkcs1 (w : World) (key : String) (keyData rest : Bytes)
    (keyBlock : pem.Block)
    (hread : w.ReadFile key = .ok keyData) (hpem : w.Decode keyData = (some keyBlock, rest))
    (hlabel : keyBlock.Type_ = "RSA PRIVATE KEY") :
    ReadRsaPrivateKey w key =
      match w.ParsePKCS1PrivateKey keyBlock.Bytes with
      | .error err =>
        { trace := [.readFile key, .pemDecode keyData, .parsePKCS1PrivateKey keyBlock.Bytes,
            .logged ("ERROR: " ++ err.Error)],
          outcome := .exited 1 }
      | .ok k =>
        { trace := [.readFile key, .pemDecode keyData, .parsePKCS1PrivateKey keyBlock.Bytes],
          outcome := .returned (.rsa k) } := by
  cases h : w.ParsePKCS1PrivateKey keyBlock.Bytes <;>
    simp [ReadRsaPrivateKey, call, log.Printf, os.Exit, bind, pure, Run.bind, hread, hpem,
      hlabel, h, ECPrivateKeyBlockType, RSAPrivateKeyBlockType]

theorem ReadRsaPrivateKey_pkcs8 (w : World) (key : String) (keyData rest : Bytes)
    (keyBlock : pem.Block)
    (hread : w.ReadFile key = .ok keyData) (hpem : w.Decode keyData = (some keyBlock, rest))
    (hlabel : keyBlock.Type_ = "PRIVATE KEY") :
    ReadRsaPrivateKey w key =
      match w.ParsePKCS8PrivateKey keyBlock.Bytes with
      | .error err =>
        { trace := [.readFile key, .pemDecode keyData, .parsePKCS8PrivateKey keyBlock.Bytes,
            .logged ("ERROR: " ++ err.Error)],
          outcome := .exited 1 }
      | .ok k =>
        { trace := [.readFile key, .pemDecode keyData, .parsePKCS8PrivateKey keyBlock.Bytes],
          outcome := .returned k } := by
  cases h : w.ParsePKCS8PrivateKey keyBlock.Bytes <;>
    simp [ReadRsaPrivateKey, call, log.Printf, os.Exit, bind, pure, Run.bind, hread, hpem,
      hlabel, h, ECPrivateKeyBlockType, RSAPrivateKeyBlockType, PrivateKeyBlockType]

theorem ReadRsaPrivateKey_other_label (w : World) (key : String) (keyData rest : Bytes)
    (keyBlock : pem.Block)
    (hread : w.ReadFile key = .ok keyData) (hpem : w.Decode keyData = (some keyBlock, rest))
    (hec : keyBlock.Type_ ≠ "EC PRIVATE KEY") (hrsa : keyBlock.Type_ ≠ "RSA PRIVATE KEY")
    (hp8 : keyBlock.Type_ ≠ "PRIVATE KEY") :
    ReadRsaPrivateKey w key =
      { trace := [.readFile key, .pemDecode keyData], outcome := .missingReturn } := by
  simp [ReadRsaPrivateKey, call, endOfFunction, bind, pure, Run.bind, hread, hpem,
    hec, hrsa, hp8, ECPrivateKeyBlockType, RSAPrivateKeyBlockType, PrivateKeyBlockType]

theorem ReadRsaPublicKey_run (w : World) (key : String) :
    ReadRsaPublicKey w key =
      match w.ReadFile key with
      | .error err =>
        { trace := [.readFile key, .logged ("ERROR: fail get idrsapub, " ++ err.Error)],
          outcome := .returned none }
      | .ok keyData =>
        match w.Decode keyData with
        | (none, _) =>
          { trace := [.readFile key, .pemDecode keyData,
              .logged "ERROR: fail get idrsapub, invalid key"],
            outcome := .returned none }
        | (some keyBlock, _) =>
          match w.ParsePKIXPublicKey keyBlock.Bytes with
          | .error err =>
            { trace := [.readFile key, .pemDecode keyData,
                .parsePKIXPublicKey keyBlock.Bytes,
                .logged ("ERROR: fail get idrsapub, " ++ err.Error)],
              outcome := .returned none }
          | .ok (.rsa publicKey) =>
            { trace := [.readFile key, .pemDecode keyData,
                .parsePKIXPublicKey keyBlock.Bytes],
              outcome := .returned (some publicKey) }
          | .ok _ =>
            { trace := [.readFile key, .pemDecode keyData,
                .parsePKIXPublicKey keyBlock.Bytes],
              outcome := .returned none } := by
  unfold ReadRsaPublicKey
  cases hread : w.ReadFile key with
  | error err => simp [call, log.Printf, bind, pure, Run.bind]
  | ok keyData =>
    rcases hpem : w.Decode keyData with ⟨_ | keyBlock, rest⟩
    · simp [call, log.Printf, bind, pure, Run.bind, hpem]
    · cases hparse : w.ParsePKIXPublicKey keyBlock.Bytes with
      | error err => simp [call, log.Printf, bind, pure, Run.bind, hpem, hparse]
      | ok publicKey =>
        cases publicKey <;> simp [call, log.Printf, bind, pure, Run.bind, hpem, hparse]

theorem RsaEncrypt_run (w : World) (p : Bytes) (key : rsa.PublicKey) :
    RsaEncrypt w (some p) key =
      match w.EncryptOAEP sha256.New w.Reader key p [] with
      | .error err =>
        { trace := [.encryptOAEP sha256.New key p [],
            .logged ("ERROR: fail to encrypt, " ++ err.Error)],
          outcome := .returned ("", some err) }
      | .ok ciperText =>
        { trace := [.encryptOAEP sha256.New key p [], .base64Encode ciperText],
          outcome := .returned (w.EncodeToString ciperText, none) } := by
  cases h : w.EncryptOAEP sha256.New w.Reader key p [] <;>
    simp [RsaEncrypt, deref, call, log.Printf, bind, pure, Run.bind, h]

theorem RsaEncrypt_nil (w : World) (key : rsa.PublicKey) :
    RsaEncrypt w none key = { trace := [], outcome := .panicked } := by
  simp [RsaEncrypt, deref, bind, Run.bind]

theorem RsaDecrypt_run (w : World) (payload : String) (key : rsa.PrivateKey) :
    RsaDecrypt w payload key =
      match w.DecodeString payload with
      | .error err =>
        { trace := [.base64Decode payload,
            .logged ("ERROR: fail to base64 decode, " ++ err.Error)],
          outcome := .returned (none, some err) }
      | .ok msg =>
        match w.DecryptOAEP sha256.New w.Reader key msg [] with
        | .error err =>
          { trace := [.base64Decode payload, .decryptOAEP sha256.New key msg [],
              .logged ("ERROR: fail to decrypt, " ++ err.Error)],
            outcome := .returned (none, some err) }
        | .ok plainText =>
          { trace := [.base64Decode payload, .decryptOAEP sha256.New key msg []],
            outcome := .returned (some plainText, none) } := by
  cases h : w.DecodeString payload with
  | error err => simp [RsaDecrypt, call, log.Printf, bind, pure, Run.bind, h]
  | ok msg =>
    cases h2 : w.DecryptOAEP sha256.New w.Reader key msg [] <;>
      simp [RsaDecrypt, call, log.Printf, bind, pure, Run.bind, h, h2]

theorem RsaDecrypt_outcome_decode_error (w : World) (payload : String)
    (key : rsa.PrivateKey) (err : GoError) (hd : w.DecodeString payload = .error err) :
    (RsaDecrypt w payload key).outcome = .returned (none, some err) := by
  rw [RsaDecrypt_run, hd]

theorem RsaDecrypt_outcome_decrypt_error (w : World) (payload : String)
    (key : rsa.PrivateKey) (msg : Bytes) (err : GoError)
    (hd : w.DecodeString payload = .ok msg)
    (hp : w.DecryptOAEP sha256.New w.Reader key msg [] = .error err) :
    (RsaDecrypt w payload key).outcome = .returned (none, some err) := by
  rw [RsaDecrypt_run, hd]
  simp only [hp]

/-! ## Theorems -/

/-- C3: for every payload `p` and RSA public key `k`, when the OAEP-SHA256
encryption primitive returns an error, `RsaEncrypt` returns the empty string
paired with that very error; when the primitive succeeds with ciphertext `c`,
`RsaEncrypt` returns the standard base64 encoding of `c` with a nil error.
`RsaEncrypt` always returns, and the string is empty whenever the error is
non-nil. -/
theorem RsaEncrypt_surfaces_primitive_result (w : World) (p : Bytes) (k : rsa.PublicKey) :
    (∀ err, w.EncryptOAEP sha256.New w.Reader k p [] = .error err →
      (RsaEncrypt w (some p) k).outcome = .returned ("", some err)) ∧
    (∀ c, w.EncryptOAEP sha256.New w.Reader k p [] = .ok c →
      (RsaEncrypt w (some p) k).outcome = .returned (w.EncodeToString c, none)) ∧
    (∃ s e, (RsaEncrypt w (some p) k).outcome = .returned (s, e) ∧ (e ≠ none → s = "")) := by
  cases h : w.EncryptOAEP sha256.New w.Reader k p [] with
  | error err =>
    simp only [RsaEncrypt, deref, call, log.Printf, bind, pure, Run.bind, h]
    refine ⟨?_, ?_, "", some err, rfl, fun _ => rfl⟩
    · intro e he
      cases he
      rfl
    · intro c hc
      cases hc
  | ok c =>
    simp only [RsaEncrypt, deref, call, log.Printf, bind, pure, Run.bind, h]
    refine ⟨?_, ?_, _, none, rfl, fun hne => absurd rfl hne⟩
    · intro e he
      cases he
    · intro c2 hc
      cases hc
      rfl

/-- C3 at the example world: a payload of 200 bytes under the 2048-bit key is
refused by the primitive, and `RsaEncrypt` returns the empty string with that
error. -/
theorem RsaEncrypt_surfaces_primitive_result_witness :
    (RsaEncrypt Example.world (some (List.replicate 200 0)) Example.pub).outcome =
      .returned ("", some Example.ErrMessageTooLong) :=
  have hlen : ((List.replicate 200 (0 : Byte)).length : Int) >
      (Example.pub.Size : Int) - 2 * sha256.New.Size - 2 := by
    rw [Example.pub_Size, List.length_replicate]
    decide
  (RsaEncrypt_surfaces_primitive_result Example.world (List.replicate 200 0) Example.pub).1
    Example.ErrMessageTooLong (if_pos hlen)

/-- C2: for every string `s` and RSA private key `k`, `RsaDecrypt` returns
`(nil, err)` with a non-nil `err` if and only if the standard base64 decoder
rejects `s` or the OAEP-SHA256 decryption primitive fails on the decoded bytes;
otherwise it returns a non-nil pointer to the plaintext of the primitive with a
nil error.  When the base64 decoding fails the decryption primitive is not
invoked. -/
theorem RsaDecrypt_fails_exactly_when (w : World) (s : String) (k : rsa.PrivateKey) :
    ((∃ err, (RsaDecrypt w s k).outcome = .returned (none, some err)) ↔
      ((∃ err, w.DecodeString s = .error err) ∨
        ∃ msg err, w.DecodeString s = .ok msg ∧
          w.DecryptOAEP sha256.New w.Reader k msg [] = .error err)) ∧
    ((¬ ∃ err, (RsaDecrypt w s k).outcome = .returned (none, some err)) →
      ∃ msg plainText, w.DecodeString s = .ok msg ∧
        w.DecryptOAEP sha256.New w.Reader k msg [] = .ok plainText ∧
        (RsaDecrypt w s k).outcome = .returned (some plainText, none)) ∧
    ((∃ err, w.DecodeString s = .error err) →
      ∀ e ∈ (RsaDecrypt w s k).trace, e.isDecryptOAEP = false) := by
  rw [RsaDecrypt_run]
  cases h : w.DecodeString s with
  | error err => simp [Event.isDecryptOAEP]
  | ok msg =>
    cases h2 : w.DecryptOAEP sha256.New w.Reader k msg [] with
    | error err => simp [h2]
    | ok plainText => simp [h2]

/-- C2 at the example world: "!!!!" is rejected by the base64 decoder, so
`RsaDecrypt` returns a nil result with an error and never calls the decryption
primitive. -/
theorem RsaDecrypt_fails_exactly_when_witness :
    (∃ err, (RsaDecrypt Example.world "!!!!" Example.priv).outcome =
      .returned (none, some err)) ∧
    ∀ e ∈ (RsaDecrypt Example.world "!!!!" Example.priv).trace, e.isDecryptOAEP = false :=
  have hd : ∃ err, Example.world.DecodeString "!!!!" = .error err :=
    ⟨Base64.CorruptInputError 0, by decide⟩
  have t := RsaDecrypt_fails_exactly_when Example.world "!!!!" Example.priv
  ⟨t.1.mpr (Or.inl hd), t.2.2 hd⟩

/-- C7: `ReadRsaPublicKey` always returns to its caller (it never exits the
process).  It returns nil when the file read fails, when no PEM block is
decoded, when the PKIX parse of the bytes of the first block fails, and when
the parsed key is not an RSA public key; it returns a non-nil RSA public key
exactly when the read, the PEM decoding and the parse succeed and the parsed key
is that RSA key. -/
theorem ReadRsaPublicKey_never_fatal (w : World) (path : String) :
    (∃ r, (ReadRsaPublicKey w path).outcome = .returned r) ∧
    (∀ err, w.ReadFile path = .error err →
      (ReadRsaPublicKey w path).outcome = .returned none) ∧
    (∀ keyData rest, w.ReadFile path = .ok keyData → w.Decode keyData = (none, rest) →
      (ReadRsaPublicKey w path).outcome = .returned none) ∧
    (∀ keyData keyBlock rest err, w.ReadFile path = .ok keyData →
      w.Decode keyData = (some keyBlock, rest) →
      w.ParsePKIXPublicKey keyBlock.Bytes = .error err →
      (ReadRsaPublicKey w path).outcome = .returned none) ∧
    (∀ keyData keyBlock rest publicKey, w.ReadFile path = .ok keyData →
      w.Decode keyData = (some keyBlock, rest) →
      w.ParsePKIXPublicKey keyBlock.Bytes = .ok publicKey →
      (∀ k, publicKey ≠ .rsa k) →
      (ReadRsaPublicKey w path).outcome = .returned none) ∧
    (∀ k, (ReadRsaPublicKey w path).outcome = .returned (some k) ↔
      ∃ keyData keyBlock rest, w.ReadFile path = .ok keyData ∧
        w.Decode keyData = (some keyBlock, rest) ∧
        w.ParsePKIXPublicKey keyBlock.Bytes = .ok (.rsa k)) := by
  rw [ReadRsaPublicKey_run]
  cases hread : w.ReadFile path with
  | error err => simp
  | ok keyData =>
    rcases hpem : w.Decode keyData with ⟨_ | keyBlock, rest⟩
    · simp [hpem]
    · cases hparse : w.ParsePKIXPublicKey keyBlock.Bytes with
      | error err => simp [hpem, hparse]
      | ok publicKey =>
        cases publicKey <;> simp [hpem, hparse]
        refine ⟨?_, ?_, ?_⟩
        · rintro d r rfl h
          rw [hpem] at h
          cases h
        · rintro d kb r err rfl h1 h2
          rw [hpem] at h1
          cases h1
          rw [hparse] at h2
          cases h2
        · rintro d kb r pk rfl h1 h2
          rw [hpem] at h1
          cases h1
          rw [hparse] at h2
          cases h2
          exact ⟨_, rfl⟩

/-- C7 at the example world: `id_ec.pub` holds an EC public key and gives nil,
`id_rsa.pub` holds the RSA public key and gives that key, a missing file gives
nil. -/
theorem ReadRsaPublicKey_never_fatal_witness :
    (ReadRsaPublicKey Example.world "id_ec.pub").outcome = .returned none ∧
    (ReadRsaPublicKey Example.world "id_rsa.pub").outcome = .returned (some Example.pub) ∧
    (ReadRsaPublicKey Example.world "missing.pub").outcome = .returned none :=
  ⟨(ReadRsaPublicKey_never_fatal Example.world "id_ec.pub").2.2.2.2.1 [7]
      { Type_ := "PUBLIC KEY", Bytes := [48, 7] } [] (.ecdsa "P-256" 1 2) rfl rfl rfl
      (fun _ h => by cases h),
    ((ReadRsaPublicKey_never_fatal Example.world "id_rsa.pub").2.2.2.2.2 Example.pub).mpr
      ⟨[6], { Type_ := "PUBLIC KEY", Bytes := [48, 6] }, [], rfl, rfl, rfl⟩,
    (ReadRsaPublicKey_never_fatal Example.world "missing.pub").2.1 _ rfl⟩

/-- C8: `ReadRsaPrivateKey` ends the process with exit status 1, returning
nothing to its caller, when the file read fails, when no PEM block is decoded,
and when the parser selected by the label of the block (SEC1 EC, PKCS#1,
PKCS#8) returns an error.  Conversely, when it ends the process the status is 1
and one of those three failures occurred, or the label is unsupported. -/
theorem ReadRsaPrivateKey_fatal_on_load_failure (w : World) (path : String) :
    (∀ err, w.ReadFile path = .error err →
      (ReadRsaPrivateKey w path).outcome = .exited 1) ∧
    (∀ keyData rest, w.ReadFile path = .ok keyData → w.Decode keyData = (none, rest) →
      (ReadRsaPrivateKey w path).outcome = .exited 1) ∧
    (∀ keyData keyBlock rest err, w.ReadFile path = .ok keyData →
      w.Decode keyData = (some keyBlock, rest) → SelectedParserFails w keyBlock err →
      (ReadRsaPrivateKey w path).outcome = .exited 1) ∧
    (∀ code, (ReadRsaPrivateKey w path).outcome = .exited code →
      code = 1 ∧
      ((∃ err, w.ReadFile path = .error err) ∨
        (∃ keyData rest, w.ReadFile path = .ok keyData ∧ w.Decode keyData = (none, rest)) ∨
        (∃ keyData keyBlock rest err, w.ReadFile path = .ok keyData ∧
          w.Decode keyData = (some keyBlock, rest) ∧ SelectedParserFails w keyBlock err) ∨
        (∃ keyData keyBlock rest, w.ReadFile path = .ok keyData ∧
          w.Decode keyData = (some keyBlock, rest) ∧ UnsupportedLabel keyBlock))) := by
  refine ⟨?_, ?_, ?_, ?_⟩
  · intro err hread
    rw [ReadRsaPrivateKey_readFile_error w path err hread]
  · intro keyData rest hread hpem
    rw [ReadRsaPrivateKey_decode_nil w path keyData rest hread hpem]
  · rintro keyData keyBlock rest err hread hpem (⟨hl, hp⟩ | ⟨hl, hp⟩ | ⟨hl, hp⟩)
    · rw [ReadRsaPrivateKey_ec w path keyData rest keyBlock hread hpem hl, hp]
    · rw [ReadRsaPrivateKey_pkcs1 w path keyData rest keyBlock hread hpem hl, hp]
    · rw [ReadRsaPrivateKey_pkcs8 w path keyData rest keyBlock hread hpem hl, hp]
  · intro code hexit
    cases hread : w.ReadFile path with
    | error err =>
      rw [ReadRsaPrivateKey_readFile_error w path err hread] at hexit
      cases hexit
      exact ⟨rfl, Or.inl ⟨err, rfl⟩⟩
    | ok keyData =>
      rcases hpem : w.Decode keyData with ⟨_ | keyBlock, rest⟩
      · rw [ReadRsaPrivateKey_decode_nil w path keyData rest hread hpem] at hexit
        cases hexit
        exact ⟨rfl, Or.inr (Or.inl ⟨keyData, rest, rfl, hpem⟩)⟩
      · by_cases hec : keyBlock.Type_ = "EC PRIVATE KEY"
        · rw [ReadRsaPrivateKey_ec w path keyData rest keyBlock hread hpem hec] at hexit
          cases hp : w.ParseECPrivateKey keyBlock.Bytes with
          | error err =>
            rw [hp] at hexit
            cases hexit
            exact ⟨rfl, Or.inr (Or.inr (Or.inl
              ⟨keyData, keyBlock, rest, err, rfl, hpem, Or.inl ⟨hec, hp⟩⟩))⟩
          | ok k =>
            rw [hp] at hexit
            cases hexit
        · by_cases hrsa : keyBlock.Type_ = "RSA PRIVATE KEY"
          · rw [ReadRsaPrivateKey_pkcs1 w path keyData rest keyBlock hread hpem hrsa] at hexit
            cases hp : w.ParsePKCS1PrivateKey keyBlock.Bytes with
            | error err =>
              rw [hp] at hexit
              cases hexit
              exact ⟨rfl, Or.inr (Or.inr (Or.inl
                ⟨keyData, keyBlock, rest, err, rfl, hpem, Or.inr (Or.inl ⟨hrsa, hp⟩)⟩))⟩
            | ok k =>
              rw [hp] at hexit
              cases hexit
          · by_cases hp8 : keyBlock.Type_ = "PRIVATE KEY"
            · rw [ReadRsaPrivateKey_pkcs8 w path keyData rest keyBlock hread hpem hp8] at hexit
              cases hp : w.ParsePKCS8PrivateKey keyBlock.Bytes with
              | error err =>
                rw [hp] at hexit
                cases hexit
                exact ⟨rfl, Or.inr (Or.inr (Or.inl
                  ⟨keyData, keyBlock, rest, err, rfl, hpem, Or.inr (Or.inr ⟨hp8, hp⟩)⟩))⟩
              | ok k =>
                rw [hp] at hexit
                cases hexit
            · rw [ReadRsaPrivateKey_other_label w path keyData rest keyBlock hread hpem
                hec hrsa hp8] at hexit
              cases hexit

/-- C8 at the example world: a missing file, a file without a PEM block and an
"RSA PRIVATE KEY" block that the PKCS#1 parser rejects each end the process
with status 1. -/
theorem ReadRsaPrivateKey_fatal_on_load_failure_witness :
    (ReadRsaPrivateKey Example.world "missing.pem").outcome = .exited 1 ∧
    (ReadRsaPrivateKey Example.world "notes.txt").outcome = .exited 1 ∧
    (ReadRsaPrivateKey Example.world "broken_rsa.pem").outcome = .exited 1 :=
  ⟨(ReadRsaPrivateKey_fatal_on_load_failure Example.world "missing.pem").1 _ rfl,
    (ReadRsaPrivateKey_fatal_on_load_failure Example.world "notes.txt").2.1 [8] [8] rfl rfl,
    (ReadRsaPrivateKey_fatal_on_load_failure Example.world "broken_rsa.pem").2.2.1 [9]
      { Type_ := "RSA PRIVATE KEY", Bytes := [48, 9] } []
      { msg := "x509: failed to parse private key" } rfl rfl (Or.inr (Or.inl ⟨rfl, rfl⟩))⟩

/-- C6: for a readable file whose first PEM block has label `L` and bytes `B`,
`ReadRsaPrivateKey` applies exactly one parser, the one selected by `L`, to
`B`: the SEC1 EC parser for "EC PRIVATE KEY", the PKCS#1 parser for
"RSA PRIVATE KEY", the PKCS#8 parser for "PRIVATE KEY"; when that parser
succeeds the result is exactly its key.  Whatever follows the first block has
no effect: two readable files with the same first block give the same outcome. -/
theorem ReadRsaPrivateKey_dispatches_on_first_label (w : World) (path : String)
    (keyData rest : Bytes) (keyBlock : pem.Block)
    (hread : w.ReadFile path = .ok keyData)
    (hpem : w.Decode keyData = (some keyBlock, rest)) :
    (keyBlock.Type_ = "EC PRIVATE KEY" →
      (ReadRsaPrivateKey w path).trace.filter Event.isParse =
        [.parseECPrivateKey keyBlock.Bytes] ∧
      ∀ k, w.ParseECPrivateKey keyBlock.Bytes = .ok k →
        (ReadRsaPrivateKey w path).outcome = .returned (.ecdsa k)) ∧
    (keyBlock.Type_ = "RSA PRIVATE KEY" →
      (ReadRsaPrivateKey w path).trace.filter Event.isParse =
        [.parsePKCS1PrivateKey keyBlock.Bytes] ∧
      ∀ k, w.ParsePKCS1PrivateKey keyBlock.Bytes = .ok k →
        (ReadRsaPrivateKey w path).outcome = .returned (.rsa k)) ∧
    (keyBlock.Type_ = "PRIVATE KEY" →
      (ReadRsaPrivateKey w path).trace.filter Event.isParse =
        [.parsePKCS8PrivateKey keyBlock.Bytes] ∧
      ∀ k, w.ParsePKCS8PrivateKey keyBlock.Bytes = .ok k →
        (ReadRsaPrivateKey w path).outcome = .returned k) ∧
    (∀ path2 keyData2 rest2, w.ReadFile path2 = .ok keyData2 →
      w.Decode keyData2 = (some keyBlock, rest2) →
      (ReadRsaPrivateKey w path2).outcome = (ReadRsaPrivateKey w path).outcome) := by
  refine ⟨?_, ?_, ?_, ?_⟩
  · intro hl
    rw [ReadRsaPrivateKey_ec w path keyData rest keyBlock hread hpem hl]
    cases hp : w.ParseECPrivateKey keyBlock.Bytes <;> simp [Event.isParse]
  · intro hl
    rw [ReadRsaPrivateKey_pkcs1 w path keyData rest keyBlock hread hpem hl]
    cases hp : w.ParsePKCS1PrivateKey keyBlock.Bytes <;> simp [Event.isParse]
  · intro hl
    rw [ReadRsaPrivateKey_pkcs8 w path keyData rest keyBlock hread hpem hl]
    cases hp : w.ParsePKCS8PrivateKey keyBlock.Bytes <;> simp [Event.isParse]
  · intro path2 keyData2 rest2 hread2 hpem2
    by_cases hec : keyBlock.Type_ = "EC PRIVATE KEY"
    · rw [ReadRsaPrivateKey_ec w path keyData rest keyBlock hread hpem hec,
        ReadRsaPrivateKey_ec w path2 keyData2 rest2 keyBlock hread2 hpem2 hec]
      cases w.ParseECPrivateKey keyBlock.Bytes <;> rfl
    · by_cases hrsa : keyBlock.Type_ = "RSA PRIVATE KEY"
      · rw [ReadRsaPrivateKey_pkcs1 w path keyData rest keyBlock hread hpem hrsa,
          ReadRsaPrivateKey_pkcs1 w path2 keyData2 rest2 keyBlock hread2 hpem2 hrsa]
        cases w.ParsePKCS1PrivateKey keyBlock.Bytes <;> rfl
      · by_cases hp8 : keyBlock.Type_ = "PRIVATE KEY"
        · rw [ReadRsaPrivateKey_pkcs8 w path keyData rest keyBlock hread hpem hp8,
            ReadRsaPrivateKey_pkcs8 w path2 keyData2 rest2 keyBlock hread2 hpem2 hp8]
          cases w.ParsePKCS8PrivateKey keyBlock.Bytes <;> rfl
        · rw [ReadRsaPrivateKey_other_label w path keyData rest keyBlock hread hpem
              hec hrsa hp8,
            ReadRsaPrivateKey_other_label w path2 keyData2 rest2 keyBlock hread2 hpem2
              hec hrsa hp8]

/-- C6 at the example world: `id_rsa.pem` holds an "RSA PRIVATE KEY" block, and
`id_rsa_then_more.pem` holds the same block followed by more input. -/
theorem ReadRsaPrivateKey_dispatches_on_first_label_witness :
    (ReadRsaPrivateKey Example.world "id_rsa.pem").trace.filter Event.isParse =
        [.parsePKCS1PrivateKey [48, 1]] ∧
      (ReadRsaPrivateKey Example.world "id_rsa.pem").outcome =
        .returned (.rsa Example.priv) ∧
      (ReadRsaPrivateKey Example.world "id_rsa_then_more.pem").outcome =
        (ReadRsaPrivateKey Example.world "id_rsa.pem").outcome :=
  have h := ReadRsaPrivateKey_dispatches_on_first_label Example.world "id_rsa.pem" [1] []
    { Type_ := "RSA PRIVATE KEY", Bytes := [48, 1] } (by decide) (by decide)
  ⟨(h.2.1 rfl).1, (h.2.1 rfl).2 Example.priv rfl,
    h.2.2.2 "id_rsa_then_more.pem" [1, 10] [10] (by decide) (by decide)⟩

/-- C1: for a matching RSA key pair `(pub, priv)` — one on which the
OAEP-SHA256 primitives round-trip — with a base64 codec whose decoding undoes
its encoding, for every payload `p` of length at most `k - 2*32 - 2` and for
every state `r1`, `r2` of the random source, `RsaEncrypt(p, pub)` returns
`(s, nil)` and `RsaDecrypt(s, priv)` returns `(q, nil)` with `*q` equal to `p`. -/
theorem RsaEncrypt_RsaDecrypt_roundtrip (w : World) (pub : rsa.PublicKey)
    (priv : rsa.PrivateKey) (p : Bytes) (r1 r2 : RandReader)
    (hpair : OAEPRoundTrips w pub priv)
    (hb64 : ∀ c, w.DecodeString (w.EncodeToString c) = .ok c)
    (hlen : (p.length : Int) ≤ (pub.Size : Int) - 2 * 32 - 2) :
    ∃ s, (RsaEncrypt { w with Reader := r1 } (some p) pub).outcome = .returned (s, none) ∧
      (RsaDecrypt { w with Reader := r2 } s priv).outcome = .returned (some p, none) := by
  obtain ⟨c, henc, hdec⟩ := hpair r1 r2 p hlen
  refine ⟨w.EncodeToString c, ?_, ?_⟩
  · rw [RsaEncrypt_run]
    simp only [henc]
  · rw [RsaDecrypt_run]
    simp only [hb64, hdec]

/-- C1 at the example world: the 2048-bit key pair, the payload "hello-world". -/
theorem RsaEncrypt_RsaDecrypt_roundtrip_witness :
    ∃ s, (RsaEncrypt { Example.world with Reader := [1, 2, 3] } (some Example.helloWorld)
        Example.pub).outcome = .returned (s, none) ∧
      (RsaDecrypt { Example.world with Reader := [] } s Example.priv).outcome =
        .returned (some Example.helloWorld, none) :=
  RsaEncrypt_RsaDecrypt_roundtrip Example.world Example.pub Example.priv Example.helloWorld
    [1, 2, 3] []
    (fun r1 r2 msg h =>
      Example.DecryptOAEP_EncryptOAEP sha256.New r1 r2 Example.priv msg [] [] h)
    Base64.DecodeString_EncodeToString
    (by rw [Example.pub_Size]; decide)

/-- C9: when the OAEP-SHA256 primitive refuses messages above its limit, every
payload `p` longer than `k - 2*32 - 2` makes `RsaEncrypt` return the empty
string with a non-nil error.  `RsaEncrypt` makes no check of its own: for every
payload `q`, of any length, the first thing it does is to call the primitive,
once, on `q` itself. -/
theorem RsaEncrypt_rejects_oversized (w : World) (pub : rsa.PublicKey) (p : Bytes)
    (hlib : OAEPRejectsOversized w pub)
    (hlen : (p.length : Int) > (pub.Size : Int) - 2 * 32 - 2) :
    (∃ err, (RsaEncrypt w (some p) pub).outcome = .returned ("", some err)) ∧
    (∀ q : Bytes,
      (RsaEncrypt w (some q) pub).trace.head? = some (.encryptOAEP sha256.New pub q []) ∧
      (RsaEncrypt w (some q) pub).trace.filter Event.isEncryptOAEP =
        [.encryptOAEP sha256.New pub q []]) := by
  refine ⟨?_, ?_⟩
  · obtain ⟨err, herr⟩ := hlib w.Reader p hlen
    refine ⟨err, ?_⟩
    rw [RsaEncrypt_run]
    simp only [herr]
  · intro q
    rw [RsaEncrypt_run]
    cases w.EncryptOAEP sha256.New w.Reader pub q [] <;> simp [Event.isEncryptOAEP]

/-- C9 at the example world: a payload of 191 bytes under the 2048-bit key,
whose limit is 190. -/
theorem RsaEncrypt_rejects_oversized_witness :
    (RsaEncrypt Example.world (some (List.replicate 191 0)) Example.pub).outcome =
      .returned ("", some Example.ErrMessageTooLong) := by
  have hlen : ((List.replicate 191 (0 : Byte)).length : Int) >
      (Example.pub.Size : Int) - 2 * 32 - 2 := by
    rw [Example.pub_Size, List.length_replicate]
    decide
  have h := RsaEncrypt_rejects_oversized Example.world Example.pub (List.replicate 191 0)
    (fun r msg hmsg => ⟨Example.ErrMessageTooLong, if_pos hmsg⟩) hlen
  obtain ⟨err, herr⟩ := h.1
  have herr2 := herr
  rw [RsaEncrypt_run] at herr2
  have hprim : Example.world.EncryptOAEP sha256.New Example.world.Reader Example.pub
      (List.replicate 191 0) [] = .error Example.ErrMessageTooLong := if_pos hlen
  rw [hprim] at herr2
  cases herr2
  exact herr

/-- C4, the code at an unsupported label: `cert.pem` is readable and its first
PEM block decodes, with the label "CERTIFICATE".  `ReadRsaPrivateKey` reads the
file and decodes the block, then runs off the end of the function: nothing is
logged, `os.Exit` is not called, and no `return` is executed. -/
theorem ReadRsaPrivateKey_unsupported_label_falls_through :
    Example.world.ReadFile "cert.pem" = .ok [5] ∧
    Example.world.Decode [5] = (some { Type_ := "CERTIFICATE", Bytes := [48, 5] }, []) ∧
    ReadRsaPrivateKey Example.world "cert.pem" =
      { trace := [.readFile "cert.pem", .pemDecode [5]], outcome := .missingReturn } ∧
    (ReadRsaPrivateKey Example.world "cert.pem").trace.filter Event.isLogged = [] := by
  decide

/-- C5 fails as stated: under one key, "!!!!" fails in the base64 decoder and
"AAAA" fails in the OAEP primitive; both return a nil result, but the two
returned error values differ, so the two returns differ. -/
theorem RsaDecrypt_failures_are_distinguishable :
    (RsaDecrypt Example.world "!!!!" Example.priv).outcome =
      .returned (none, some (Base64.CorruptInputError 0)) ∧
    (RsaDecrypt Example.world "AAAA" Example.priv).outcome =
      .returned (none, some Example.ErrDecryption) ∧
    (RsaDecrypt Example.world "!!!!" Example.priv).outcome ≠
      (RsaDecrypt Example.world "AAAA" Example.priv).outcome := by
  have hd1 : Example.world.DecodeString "!!!!" = .error (Base64.CorruptInputError 0) := by
    decide
  have hd2 : Example.world.DecodeString "AAAA" = .ok [0, 0, 0] := by decide
  have hlen : ([0, 0, 0] : Bytes).length ≠ Example.priv.PublicKey.Size := by
    rw [show Example.priv.PublicKey = Example.pub from rfl, Example.pub_Size]
    decide
  have hdec : Example.world.DecryptOAEP sha256.New Example.world.Reader Example.priv
      [0, 0, 0] [] = .error Example.ErrDecryption := if_pos hlen
  have h1 := RsaDecrypt_outcome_decode_error Example.world "!!!!" Example.priv _ hd1
  have h2 := RsaDecrypt_outcome_decrypt_error Example.world "AAAA" Example.priv _ _ hd2 hdec
  refine ⟨h1, h2, ?_⟩
  rw [h1, h2]
  decide

/-- C5 as amended: whenever `RsaDecrypt` fails, under any key, the result is
nil and the error returned is the error of the stage that failed, unchanged —
the error of the base64 decoder, or else the error of the OAEP primitive.  Two
failures are therefore returned identically exactly when those two errors are
equal. -/
theorem RsaDecrypt_failure_is_stage_error (w : World) (k : rsa.PrivateKey) (s1 s2 : String)
    (r1 r2 : Option Bytes) (e1 e2 : GoError)
    (h1 : (RsaDecrypt w s1 k).outcome = .returned (r1, some e1))
    (h2 : (RsaDecrypt w s2 k).outcome = .returned (r2, some e2)) :
    r1 = none ∧ r2 = none ∧
    (w.DecodeString s1 = .error e1 ∨
      ∃ msg, w.DecodeString s1 = .ok msg ∧
        w.DecryptOAEP sha256.New w.Reader k msg [] = .error e1) ∧
    (w.DecodeString s2 = .error e2 ∨
      ∃ msg, w.DecodeString s2 = .ok msg ∧
        w.DecryptOAEP sha256.New w.Reader k msg [] = .error e2) ∧
    ((RsaDecrypt w s1 k).outcome = (RsaDecrypt w s2 k).outcome ↔ e1 = e2) := by
  have key : ∀ (s : String) (r : Option Bytes) (e : GoError),
      (RsaDecrypt w s k).outcome = .returned (r, some e) →
      r = none ∧ (w.DecodeString s = .error e ∨
        ∃ msg, w.DecodeString s = .ok msg ∧
          w.DecryptOAEP sha256.New w.Reader k msg [] = .error e) := by
    intro s r e h
    rw [RsaDecrypt_run] at h
    cases hd : w.DecodeString s with
    | error err =>
      rw [hd] at h
      simp only [Outcome.returned.injEq, Prod.mk.injEq, Option.some.injEq] at h
      exact ⟨h.1.symm, Or.inl (by rw [h.2])⟩
    | ok msg =>
      rw [hd] at h
      cases hp : w.DecryptOAEP sha256.New w.Reader k msg [] with
      | error err =>
        simp only [hp, Outcome.returned.injEq, Prod.mk.injEq, Option.some.injEq] at h
        exact ⟨h.1.symm, Or.inr ⟨msg, rfl, by rw [hp, h.2]⟩⟩
      | ok plainText =>
        simp [hp] at h
  obtain ⟨hr1, hs1⟩ := key s1 r1 e1 h1
  obtain ⟨hr2, hs2⟩ := key s2 r2 e2 h2
  refine ⟨hr1, hr2, hs1, hs2, ?_⟩
  rw [h1, h2, hr1, hr2]
  simp

/-- C5 as amended, at the example world: "!!!!" fails in the base64 decoder,
"AAAA" fails in the OAEP primitive, and the two returns are equal exactly when
the decoder error equals the decryption error. -/
theorem RsaDecrypt_failure_is_stage_error_witness :
    (Example.world.DecodeString "!!!!" = .error (Base64.CorruptInputError 0) ∨
      ∃ msg, Example.world.DecodeString "!!!!" = .ok msg ∧
        Example.world.DecryptOAEP sha256.New Example.world.Reader Example.priv msg [] =
          .error (Base64.CorruptInputError 0)) ∧
    (Example.world.DecodeString "AAAA" = .error Example.ErrDecryption ∨
      ∃ msg, Example.world.DecodeString "AAAA" = .ok msg ∧
        Example.world.DecryptOAEP sha256.New Example.world.Reader Example.priv msg [] =
          .error Example.ErrDecryption) ∧
    ((RsaDecrypt Example.world "!!!!" Example.priv).outcome =
        (RsaDecrypt Example.world "AAAA" Example.priv).outcome ↔
      Base64.CorruptInputError 0 = Example.ErrDecryption) :=
  have hlen : ([0, 0, 0] : Bytes).length ≠ Example.priv.PublicKey.Size := by
    rw [show Example.priv.PublicKey = Example.pub from rfl, Example.pub_Size]
    decide
  have h1 := RsaDecrypt_outcome_decode_error Example.world "!!!!" Example.priv
    (Base64.CorruptInputError 0) (by decide)
  have h2 := RsaDecrypt_outcome_decrypt_error Example.world "AAAA" Example.priv [0, 0, 0]
    Example.ErrDecryption (by decide) (if_pos hlen)
  have t := RsaDecrypt_failure_is_stage_error Example.world Example.priv "!!!!" "AAAA"
    none none (Base64.CorruptInputError 0) Example.ErrDecryption h1 h2
  ⟨t.2.2.1, t.2.2.2.1, t.2.2.2.2⟩

/-- C10, the code at a PKCS#8 file that wraps an Ed25519 key: `id_ed25519.pem`
is readable, its first PEM block has the label "PRIVATE KEY", and the PKCS#8
parser yields the Ed25519 key the container wraps.  The "PRIVATE KEY" case of
the switch, commented "RSA or ECDSA Private Key in unencrypted PKCS#8 format",
applies no type check: `ReadRsaPrivateKey` returns that key, which is neither
an RSA nor an EC private key. -/
theorem ReadRsaPrivateKey_returns_ed25519 :
    Example.world.ReadFile "id_ed25519.pem" = .ok [4] ∧
    Example.world.Decode [4] = (some { Type_ := "PRIVATE KEY", Bytes := [48, 4] }, []) ∧
    Example.world.ParsePKCS8PrivateKey [48, 4] = .ok (.ed25519 Example.edKey) ∧
    ReadRsaPrivateKey Example.world "id_ed25519.pem" =
      { trace := [.readFile "id_ed25519.pem", .pemDecode [4],
          .parsePKCS8PrivateKey [48, 4]],
        outcome := .returned (.ed25519 Example.edKey) } ∧
    (PrivateKey.ed25519 Example.edKey).isRSA = false ∧
    (PrivateKey.ed25519 Example.edKey).isEC = false := by
  decide

end Medusa
